import Mathlib

/-!
Shallow embedding of the QuantFinance repository's return-series analytics.

* `src/AssetSelection/AssetScorer.py`: `check_return_cleanliness` (the
  validator) and `asset_score`.
* `src/BackTest/metrics.py`: `cumulative return` (`returns.add(1).cumprod()`),
  `drawdown`, `max_drawdown`, `sharpe_ratio`, `sortino_ratio`.

A pandas return series is modelled as a list of (timestamp, value) pairs
plus a flag recording whether the index dtype has been converted to the
canonical datetime type (`pd.to_datetime` keeps the ordinal position of
each timestamp and changes only its representation, so the conversion is
modelled as flipping that flag). A missing value (NaN) is `none`; clean
values are exact rationals. Raising a Python exception is modelled with
`Except`; the few IEEE-float degeneracies the code can produce (division
by zero, statistics of too-small samples) are modelled explicitly with
dedicated constructors (`PyF.nan`, `PyF.pinf`, ..., `StdVal.nan`).
-/

namespace QF

/-- A pandas return time series: ordered (timestamp, value) rows, `none`
standing for a missing value (NaN), together with whether the index has
been converted to the canonical datetime dtype. Timestamps are the
ordinal values of the index entries. -/
structure RSeries where
  data : List (Int × Option ℚ)
  canon : Bool
deriving DecidableEq, Repr

/-- The Python exceptions the embedded code can raise. -/
inductive PyError where
  /-- `ValueError('Returns contain missing values.')` -/
  | valueErrorMissing
  /-- `ValueError('Returns contain duplicate index.')` -/
  | valueErrorDuplicate
  /-- `ValueError`: the truth value of a Series is ambiguous. -/
  | valueErrorTruth
  /-- `AttributeError`: `None` has no attribute `isnull`. -/
  | attributeError
deriving DecidableEq, Repr

/-- `returns.isnull().sum()`: the number of missing values. -/
def isnullSum (s : RSeries) : Nat :=
  s.data.countP (fun p => p.2.isNone)

/-- `index.duplicated().sum()`: how many index entries occur more than
once (counted from the first repetition onwards). -/
def duplicatedSum : List Int → Nat
  | [] => 0
  | a :: t => (if a ∈ t then 1 else 0) + duplicatedSum t

/-- `index.is_monotonic_increasing`: adjacent entries are non-decreasing. -/
def isMonotonicIncreasing : List Int → Bool
  | [] => true
  | [_] => true
  | a :: b :: t => decide (a ≤ b) && isMonotonicIncreasing (b :: t)

/-- `returns.sort_index()`: a new series whose rows are sorted by
timestamp ascending; the index dtype is unchanged. -/
def sort_index (s : RSeries) : RSeries :=
  ⟨List.insertionSort (fun p q => p.1 ≤ q.1) s.data, s.canon⟩

/-- `pd.to_datetime(s.index)` applied to the series' index: the index is
re-represented in the canonical datetime dtype; each timestamp keeps its
ordinal value. -/
def to_datetime (s : RSeries) : RSeries :=
  ⟨s.data, true⟩

/-- What one call of `check_return_cleanliness` produces on a non-raising
path: the returned series, the value of the caller's argument object
after the call (the clean path assigns `returns.index = pd.to_datetime(
returns.index)`, mutating that object in place), and whether the
out-of-order notice (`print`) was emitted. -/
structure CheckOut where
  result : RSeries
  inputAfter : RSeries
  notice : Bool
deriving DecidableEq, Repr

/-- `check_return_cleanliness(returns)` from `AssetScorer.py`, lines 4-26:
raise on a missing value, then raise on a duplicated index, then — if the
index is not sorted — return the re-sorted series (with the notice, and
without the datetime conversion, which the early `return` skips);
otherwise convert the index to datetime in place and return the series. -/
def check_return_cleanliness (returns : RSeries) : Except PyError CheckOut :=
  if 0 < isnullSum returns then
    .error .valueErrorMissing
  else if 0 < duplicatedSum (returns.data.map Prod.fst) then
    .error .valueErrorDuplicate
  else if !(isMonotonicIncreasing (returns.data.map Prod.fst)) then
    .ok ⟨sort_index returns, returns, true⟩
  else
    .ok ⟨to_datetime returns, to_datetime returns, false⟩

/-- The series `check_return_cleanliness` hands back (the spec's
`validate`), forgetting the mutation/notice side channels. -/
def validate (s : RSeries) : Except PyError RSeries :=
  (check_return_cleanliness s).map CheckOut.result

/-- `if benchmark_returns:` on a pandas Series: `NDFrame.__bool__`
unconditionally raises `ValueError` ("The truth value of a Series is
ambiguous."), whatever the series' length. -/
def seriesBool (_s : RSeries) : Except PyError Bool :=
  .error .valueErrorTruth

/-- `check_return_cleanliness` applied to an argument that may be `None`
(the default of `benchmark_returns`): `None.isnull()` raises
`AttributeError`. -/
def checkOpt : Option RSeries → Except PyError RSeries
  | none => .error .attributeError
  | some s => validate s

/-- `asset_score(returns, benchmark_returns=None, window=252)` from
`AssetScorer.py`, lines 28-45: run the cleanliness check on `returns`,
then on `benchmark_returns`, then test `if benchmark_returns:`; the
branch body is `pass`, and the function body ends with no `return`
statement, so a non-raising run returns `None` (modelled as
`Except.ok none`: no score series). -/
def asset_score (returns : RSeries) (benchmark_returns : Option RSeries)
    (_window : Nat) : Except PyError (Option RSeries) := do
  let _returns ← validate returns
  let b ← checkOpt benchmark_returns
  let _c ← seriesBool b
  pure none

/-! ### BackTest/metrics.py -/

/-- An IEEE-float metric value: an exact finite rational, NaN, or a signed
infinity.  The metric code only meets non-finite values through division
by zero and through `NaN` propagation, so exact rationals plus these three
sentinels represent every value it can produce. -/
inductive PyF where
  | fin (q : ℚ)
  | nan
  | pinf
  | ninf
deriving DecidableEq, Repr

/-- IEEE division of finite floats, with the exact quotient in the finite
case: `0/0 = NaN`, `x/0 = ±inf` for `x ≠ 0`. -/
def fdiv (a b : ℚ) : PyF :=
  if b = 0 then
    if a = 0 then .nan else if 0 < a then .pinf else .ninf
  else .fin (a / b)

/-- Running products: `cumprodAux acc [x₁, x₂, ...] = [acc*x₁, acc*x₁*x₂, ...]`. -/
def cumprodAux : ℚ → List ℚ → List ℚ
  | _, [] => []
  | acc, x :: t => (acc * x) :: cumprodAux (acc * x) t

/-- `Series.cumprod()`. -/
def cumprod (l : List ℚ) : List ℚ :=
  cumprodAux 1 l

/-- Running maxima continuing from a seed: the i-th entry is the maximum
of the seed and the first i+1 list entries. -/
def cummaxAux : ℚ → List ℚ → List ℚ
  | _, [] => []
  | m, x :: t => (max m x) :: cummaxAux (max m x) t

/-- `Series.cummax()`. -/
def cummax : List ℚ → List ℚ
  | [] => []
  | x :: t => cummaxAux x (x :: t)

/-- `returns.add(1).cumprod()`: the cumulative return curve.  Metric
functions read only the value column of a (validated) series, so they are
embedded over the plain list of values. -/
def cumulative_return (returns : List ℚ) : List ℚ :=
  cumprod (returns.map (fun r => r + 1))

/-- `drawdown(returns)` from `metrics.py`, lines 43-47:
`(cum_ret - running_max) / running_max`, elementwise. -/
def drawdown (returns : List ℚ) : List PyF :=
  let cum_ret := cumulative_return returns
  let running_max := cummax cum_ret
  List.zipWith (fun c m => fdiv (c - m) m) cum_ret running_max

/-- `min` of two float values as `Series.min()` aggregates them: NaN is
skipped, not propagated. -/
def pymin2 : PyF → PyF → PyF
  | .nan, y => y
  | x, .nan => x
  | .ninf, _ => .ninf
  | _, .ninf => .ninf
  | .pinf, y => y
  | x, .pinf => x
  | .fin a, .fin b => .fin (min a b)

/-- `Series.min()` (default `skipna=True`): NaN for an empty or all-NaN
series, otherwise the least non-NaN entry. -/
def pymin (l : List PyF) : PyF :=
  l.foldl pymin2 .nan

/-- `max_drawdown(returns)` from `metrics.py`, lines 49-50. -/
def max_drawdown (returns : List ℚ) : PyF :=
  pymin (drawdown returns)

/-- `Series.mean()`: the arithmetic mean.  (Only ever applied to non-empty
series in the theorems below; pandas would yield NaN on an empty one.) -/
def mean (l : List ℚ) : ℚ :=
  l.sum / l.length

/-- The sample variance with `ddof=1`, the default of `Series.std()`. -/
def svar (l : List ℚ) : ℚ :=
  (l.map (fun x => (x - mean l) ^ 2)).sum / (l.length - 1 : ℕ)

/-- The value of `Series.std()` (`ddof=1`): NaN when the sample has fewer
than two points, otherwise the non-negative real `√v` where `v` is the
sample variance — kept in the exact symbolic form `sqrtOf v`, since `√v`
is in general irrational. -/
inductive StdVal where
  | nan
  | sqrtOf (v : ℚ)
deriving DecidableEq, Repr

/-- `Series.std()` with the default `ddof=1`. -/
def std (l : List ℚ) : StdVal :=
  if l.length ≤ 1 then .nan else .sqrtOf (svar l)

/-- The value of a float ratio `num / σ` whose denominator is a standard
deviation: NaN divided into anything is NaN; division by `√0 = 0` gives
NaN or a signed infinity; otherwise the exact value `num / √v` (kept
symbolic as `overSqrt num v`, with `v > 0`). -/
inductive RatioVal where
  | nan
  | pinf
  | ninf
  | overSqrt (num v : ℚ)
deriving DecidableEq, Repr

/-- Divide a finite numerator by a standard-deviation value, with IEEE
zero-division and NaN-propagation semantics. -/
def ratioDiv (num : ℚ) : StdVal → RatioVal
  | .nan => .nan
  | .sqrtOf v =>
    if v = 0 then
      if num = 0 then .nan else if 0 < num then .pinf else .ninf
    else .overSqrt num v

/-- A ratio value is finite when it is neither NaN nor infinite; this is
the check a caller runs to detect the degenerate zero-variance case. -/
def RatioVal.isFinite : RatioVal → Bool
  | .overSqrt _ _ => true
  | _ => false

/-- `sharpe_ratio(returns, risk_free_rate=0)` from `metrics.py`,
lines 52-53: `(returns.mean() - risk_free_rate) / returns.std()`. -/
def sharpe_ratio (returns : List ℚ) (risk_free_rate : ℚ) : RatioVal :=
  ratioDiv (mean returns - risk_free_rate) (std returns)

/-- `sortino_ratio(returns, risk_free_rate=0)` from `metrics.py`,
lines 55-56: `(returns.mean() - risk_free_rate) / returns[returns < 0].std()`. -/
def sortino_ratio (returns : List ℚ) (risk_free_rate : ℚ) : RatioVal :=
  ratioDiv (mean returns - risk_free_rate) (std (returns.filter (fun x => x < 0)))

/-! ### Helper lemmas about the validator -/

lemma isnullSum_eq_zero_iff (s : RSeries) :
    isnullSum s = 0 ↔ ∀ p ∈ s.data, p.2 ≠ none := by
  simp [isnullSum, List.countP_eq_zero, Option.isNone_iff_eq_none]

lemma duplicatedSum_eq_zero_iff : ∀ l : List Int, duplicatedSum l = 0 ↔ l.Nodup := by
  intro l
  induction l with
  | nil => simp [duplicatedSum]
  | cons a t ih => by_cases h : a ∈ t <;> simp [duplicatedSum, h, ih]

lemma isMonotonicIncreasing_iff_chain :
    ∀ l : List Int, isMonotonicIncreasing l = true ↔ List.Chain' (· ≤ ·) l := by
  intro l
  induction l with
  | nil => simp [isMonotonicIncreasing]
  | cons a t ih =>
    cases t with
    | nil => simp [isMonotonicIncreasing]
    | cons b t2 =>
      rw [isMonotonicIncreasing, List.chain'_cons, Bool.and_eq_true, decide_eq_true_eq, ih]

lemma isMonotonicIncreasing_iff_sorted (l : List Int) :
    isMonotonicIncreasing l = true ↔ List.Sorted (· ≤ ·) l := by
  rw [isMonotonicIncreasing_iff_chain, List.chain'_iff_pairwise]
  exact Iff.rfl

lemma sorted_lt_iff_sorted_le_of_nodup {l : List Int} (h : l.Nodup) :
    List.Sorted (· < ·) l ↔ List.Sorted (· ≤ ·) l := by
  constructor
  · exact fun hs => hs.imp fun hab => le_of_lt hab
  · exact fun hs => (hs.and h).imp fun hab => lt_of_le_of_ne hab.1 hab.2

/-- The four runs of `check_return_cleanliness`, one rewrite lemma each. -/
lemma check_eq_of_null {s : RSeries} (h : 0 < isnullSum s) :
    check_return_cleanliness s = .error .valueErrorMissing := by
  simp [check_return_cleanliness, h]

lemma check_eq_of_dup {s : RSeries} (h1 : isnullSum s = 0)
    (h2 : 0 < duplicatedSum (s.data.map Prod.fst)) :
    check_return_cleanliness s = .error .valueErrorDuplicate := by
  simp [check_return_cleanliness, h1, h2]

lemma check_eq_of_unsorted {s : RSeries} (h1 : isnullSum s = 0)
    (h2 : duplicatedSum (s.data.map Prod.fst) = 0)
    (h3 : isMonotonicIncreasing (s.data.map Prod.fst) = false) :
    check_return_cleanliness s = .ok ⟨sort_index s, s, true⟩ := by
  simp [check_return_cleanliness, h1, h2, h3]

lemma check_eq_of_clean {s : RSeries} (h1 : isnullSum s = 0)
    (h2 : duplicatedSum (s.data.map Prod.fst) = 0)
    (h3 : isMonotonicIncreasing (s.data.map Prod.fst) = true) :
    check_return_cleanliness s = .ok ⟨to_datetime s, to_datetime s, false⟩ := by
  simp [check_return_cleanliness, h1, h2, h3]

instance : IsTotal (Int × Option ℚ) (fun p q => p.1 ≤ q.1) :=
  ⟨fun a b => le_total a.1 b.1⟩

instance : IsTrans (Int × Option ℚ) (fun p q => p.1 ≤ q.1) :=
  ⟨fun _ _ _ h1 h2 => le_trans h1 h2⟩

lemma sort_index_perm (s : RSeries) : (sort_index s).data.Perm s.data :=
  List.perm_insertionSort _ _

lemma sort_index_sorted (s : RSeries) :
    List.Sorted (· ≤ ·) ((sort_index s).data.map Prod.fst) := by
  have h := List.sorted_insertionSort (fun p q : Int × Option ℚ => p.1 ≤ q.1) s.data
  exact List.Pairwise.map Prod.fst (fun _ _ hab => hab) h

lemma sort_index_canon (s : RSeries) : (sort_index s).canon = s.canon := rfl

lemma isnullSum_sort_index (s : RSeries) : isnullSum (sort_index s) = isnullSum s :=
  (sort_index_perm s).countP_eq _

lemma duplicatedSum_sort_index_eq_zero {s : RSeries}
    (h : duplicatedSum (s.data.map Prod.fst) = 0) :
    duplicatedSum ((sort_index s).data.map Prod.fst) = 0 := by
  rw [duplicatedSum_eq_zero_iff] at h ⊢
  exact (((sort_index_perm s).map Prod.fst).nodup_iff).mpr h

lemma isMonotonicIncreasing_sort_index (s : RSeries) :
    isMonotonicIncreasing ((sort_index s).data.map Prod.fst) = true :=
  (isMonotonicIncreasing_iff_sorted _).mpr (sort_index_sorted s)

/-! ### Claims about the validator (C2-C5) -/

/-- **C2.** `check_return_cleanliness` raises exactly when the series has a
missing value or a duplicated timestamp; on a clean series whose timestamps
are not strictly increasing it does not raise: it emits the notice, leaves
the caller's object untouched, and returns a new series that is a
permutation of the input sorted by timestamp ascending. -/
theorem check_raises_iff_missing_or_dup (s : RSeries) :
    ((∃ e, check_return_cleanliness s = .error e) ↔
      ((∃ p ∈ s.data, p.2 = none) ∨ ¬ (s.data.map Prod.fst).Nodup))
    ∧ ((∀ p ∈ s.data, p.2 ≠ none) → (s.data.map Prod.fst).Nodup →
        ¬ List.Sorted (· < ·) (s.data.map Prod.fst) →
        check_return_cleanliness s = .ok ⟨sort_index s, s, true⟩
        ∧ (sort_index s).data.Perm s.data
        ∧ List.Sorted (· ≤ ·) ((sort_index s).data.map Prod.fst)) := by
  have hnull : 0 < isnullSum s ↔ ∃ p ∈ s.data, p.2 = none := by
    rw [Nat.pos_iff_ne_zero, Ne, isnullSum_eq_zero_iff]
    push_neg
    exact Iff.rfl
  have hdup : 0 < duplicatedSum (s.data.map Prod.fst) ↔ ¬ (s.data.map Prod.fst).Nodup := by
    rw [Nat.pos_iff_ne_zero]
    exact not_congr (duplicatedSum_eq_zero_iff _)
  constructor
  · constructor
    · rintro ⟨e, he⟩
      by_contra hcon
      push_neg at hcon
      obtain ⟨hno, hnd⟩ := hcon
      have h1 : isnullSum s = 0 := by
        by_contra h
        obtain ⟨p, hp, hpn⟩ := hnull.mp (Nat.pos_of_ne_zero h)
        exact hno p hp hpn
      have h2 : duplicatedSum (s.data.map Prod.fst) = 0 := by
        by_contra h
        exact (hdup.mp (Nat.pos_of_ne_zero h)) hnd
      rcases Bool.eq_false_or_eq_true (isMonotonicIncreasing (s.data.map Prod.fst)) with h3 | h3
      · rw [check_eq_of_clean h1 h2 h3] at he
        exact absurd he (by simp)
      · rw [check_eq_of_unsorted h1 h2 h3] at he
        exact absurd he (by simp)
    · rintro (hmiss | hdup2)
      · exact ⟨_, check_eq_of_null (hnull.mpr hmiss)⟩
      · by_cases h1 : 0 < isnullSum s
        · exact ⟨_, check_eq_of_null h1⟩
        · exact ⟨_, check_eq_of_dup (Nat.eq_zero_of_not_pos h1) (hdup.mpr hdup2)⟩
  · intro hv hnd hns
    have h1 : isnullSum s = 0 := (isnullSum_eq_zero_iff s).mpr hv
    have h2 : duplicatedSum (s.data.map Prod.fst) = 0 := (duplicatedSum_eq_zero_iff _).mpr hnd
    have h3 : isMonotonicIncreasing (s.data.map Prod.fst) = false := by
      rcases Bool.eq_false_or_eq_true (isMonotonicIncreasing (s.data.map Prod.fst)) with h | h
      · exact absurd ((sorted_lt_iff_sorted_le_of_nodup hnd).mpr
          ((isMonotonicIncreasing_iff_sorted _).mp h)) hns
      · exact h
    exact ⟨check_eq_of_unsorted h1 h2 h3, sort_index_perm s, sort_index_sorted s⟩

/-- **C3 counterexample.** On the clean-but-out-of-order series
`[(1, 1), (0, 2)]` with a non-datetime index, the resort path returns
before `pd.to_datetime` runs: the returned series still has
`canon = false`, so the conversion does not occur on this non-error path. -/
theorem check_resort_skips_to_datetime :
    check_return_cleanliness ⟨[(1, some 1), (0, some 2)], false⟩
      = .ok ⟨⟨[(0, some 2), (1, some 1)], false⟩, ⟨[(1, some 1), (0, some 2)], false⟩, true⟩
    ∧ (⟨[(0, some 2), (1, some 1)], false⟩ : RSeries).canon = false := by
  refine ⟨?_, rfl⟩
  norm_num [check_return_cleanliness, isnullSum, duplicatedSum, isMonotonicIncreasing,
    sort_index, List.insertionSort, List.orderedInsert, List.countP, List.countP.go]

/-- **C3 amended.** On a clean series the index is converted to the
canonical datetime dtype exactly on the already-sorted path; the resort
path returns the sorted series with the input's index dtype unchanged. -/
theorem check_canon_paths (s : RSeries) (h1 : isnullSum s = 0)
    (h2 : duplicatedSum (s.data.map Prod.fst) = 0) :
    (isMonotonicIncreasing (s.data.map Prod.fst) = true →
      check_return_cleanliness s = .ok ⟨to_datetime s, to_datetime s, false⟩
      ∧ (to_datetime s).canon = true)
    ∧ (isMonotonicIncreasing (s.data.map Prod.fst) = false →
      check_return_cleanliness s = .ok ⟨sort_index s, s, true⟩
      ∧ (sort_index s).canon = s.canon) :=
  ⟨fun h3 => ⟨check_eq_of_clean h1 h2 h3, rfl⟩,
   fun h3 => ⟨check_eq_of_unsorted h1 h2 h3, rfl⟩⟩

/-- Witness for `check_canon_paths` at the sorted two-row series. -/
theorem check_canon_paths_witness :
    check_return_cleanliness ⟨[(0, some 1), (1, some 2)], false⟩
      = .ok ⟨⟨[(0, some 1), (1, some 2)], true⟩, ⟨[(0, some 1), (1, some 2)], true⟩, false⟩ := by
  have h := check_canon_paths ⟨[(0, some 1), (1, some 2)], false⟩
    (by norm_num [isnullSum, List.countP, List.countP.go])
    (by norm_num [duplicatedSum])
  exact (h.1 (by norm_num [isMonotonicIncreasing])).1

/-- **C4 counterexample.** On the clean, already-sorted series `[(0, 1)]`
with a non-datetime index, the call assigns `returns.index =
pd.to_datetime(returns.index)`: after the call the caller's object differs
from the value that was passed in, so `validate` does mutate caller-owned
data. -/
theorem check_clean_path_mutates :
    check_return_cleanliness ⟨[(0, some 1)], false⟩
      = .ok ⟨⟨[(0, some 1)], true⟩, ⟨[(0, some 1)], true⟩, false⟩
    ∧ (⟨[(0, some 1)], true⟩ : RSeries) ≠ (⟨[(0, some 1)], false⟩ : RSeries) := by
  constructor
  · norm_num [check_return_cleanliness, isnullSum, duplicatedSum, isMonotonicIncreasing,
      to_datetime, List.countP, List.countP.go]
  · simp

/-- **C4 amended.** On the resort path (and on the error paths, which run
no assignment) the caller's series is left unchanged and a new sorted
series is returned; on the clean-and-sorted path the call converts the
caller's index to the datetime dtype in place — the one mutation — and
returns that same mutated object, which coincides with the input value
exactly when the index was already canonical. -/
theorem check_mutation_profile (s : RSeries) (h1 : isnullSum s = 0)
    (h2 : duplicatedSum (s.data.map Prod.fst) = 0) :
    (isMonotonicIncreasing (s.data.map Prod.fst) = false →
      check_return_cleanliness s = .ok ⟨sort_index s, s, true⟩)
    ∧ (isMonotonicIncreasing (s.data.map Prod.fst) = true →
      check_return_cleanliness s = .ok ⟨to_datetime s, to_datetime s, false⟩
      ∧ (to_datetime s).data = s.data
      ∧ (s.canon = true → to_datetime s = s)) := by
  refine ⟨fun h3 => check_eq_of_unsorted h1 h2 h3,
          fun h3 => ⟨check_eq_of_clean h1 h2 h3, rfl, fun hc => ?_⟩⟩
  cases s with
  | mk d c => subst hc; rfl

/-- Witness for `check_mutation_profile` at an out-of-order series. -/
theorem check_mutation_profile_witness :
    check_return_cleanliness ⟨[(1, some 1), (0, some 2)], true⟩
      = .ok ⟨⟨[(0, some 2), (1, some 1)], true⟩, ⟨[(1, some 1), (0, some 2)], true⟩, true⟩ := by
  have h := check_mutation_profile ⟨[(1, some 1), (0, some 2)], true⟩
    (by norm_num [isnullSum, List.countP, List.countP.go])
    (by norm_num [duplicatedSum])
  have h2 := h.1 (by norm_num [isMonotonicIncreasing])
  rw [h2]
  norm_num [sort_index, List.insertionSort, List.orderedInsert]

/-- **C5 counterexample.** The series `[(1, 1), (0, 2)]` has no missing
value and no duplicate timestamp, yet `validate (validate S) ≠ validate S`:
the first pass takes the resort path and skips the datetime conversion,
the second pass (now sorted) applies it, so the two results differ in the
index dtype. -/
theorem validate_not_idempotent :
    isnullSum ⟨[(1, some 1), (0, some 2)], false⟩ = 0
    ∧ duplicatedSum ((⟨[(1, some 1), (0, some 2)], false⟩ : RSeries).data.map Prod.fst) = 0
    ∧ (validate ⟨[(1, some 1), (0, some 2)], false⟩).bind validate
        ≠ validate ⟨[(1, some 1), (0, some 2)], false⟩ := by
  refine ⟨by norm_num [isnullSum, List.countP, List.countP.go], by norm_num [duplicatedSum], ?_⟩
  norm_num [validate, check_return_cleanliness, isnullSum, duplicatedSum,
    isMonotonicIncreasing, sort_index, to_datetime, List.insertionSort, List.orderedInsert,
    List.countP, List.countP.go, Except.map, Except.bind, bind]

/-- **C5 amended.** `validate` is idempotent on every clean series that is
already sorted, and on every clean out-of-order series whose index is
already in the canonical datetime dtype; the remaining case (out of order,
non-canonical index) is the counterexample above. -/
theorem validate_idempotent_of_sorted_or_canon (s : RSeries)
    (h1 : isnullSum s = 0) (h2 : duplicatedSum (s.data.map Prod.fst) = 0)
    (h3 : isMonotonicIncreasing (s.data.map Prod.fst) = true ∨ s.canon = true) :
    (validate s).bind validate = validate s := by
  rcases Bool.eq_false_or_eq_true (isMonotonicIncreasing (s.data.map Prod.fst)) with hm | hm
  · rw [validate, check_eq_of_clean h1 h2 hm]
    have h1' : isnullSum (to_datetime s) = 0 := h1
    have h2' : duplicatedSum ((to_datetime s).data.map Prod.fst) = 0 := h2
    have h3' : isMonotonicIncreasing ((to_datetime s).data.map Prod.fst) = true := hm
    simp only [Except.map, Except.bind, bind]
    rw [validate, check_eq_of_clean h1' h2' h3']
    simp [Except.map, to_datetime]
  · have hc : s.canon = true := h3.resolve_left (by simp [hm])
    rw [validate, check_eq_of_unsorted h1 h2 hm]
    have h1' : isnullSum (sort_index s) = 0 := by rw [isnullSum_sort_index]; exact h1
    have h2' := duplicatedSum_sort_index_eq_zero h2
    have h3' := isMonotonicIncreasing_sort_index s
    simp only [Except.map, Except.bind, bind]
    rw [validate, check_eq_of_clean h1' h2' h3']
    simp [Except.map, to_datetime, sort_index, hc]

/-- Witness for `validate_idempotent_of_sorted_or_canon` at a sorted
one-row series. -/
theorem validate_idempotent_witness :
    (validate ⟨[(0, some 1)], false⟩).bind validate = validate ⟨[(0, some 1)], false⟩ := by
  exact validate_idempotent_of_sorted_or_canon ⟨[(0, some 1)], false⟩
    (by norm_num [isnullSum, List.countP, List.countP.go])
    (by norm_num [duplicatedSum])
    (Or.inl (by norm_num [isMonotonicIncreasing]))

/-! ### Claims about asset_score (C1, C10) -/

lemma asset_score_always_errors (r : RSeries) (b : Option RSeries) (w : Nat) :
    ∃ e, asset_score r b w = .error e := by
  cases hv : validate r with
  | error e => exact ⟨e, by simp [asset_score, hv, bind, Except.bind]⟩
  | ok r2 =>
    cases b with
    | none => exact ⟨.attributeError, by simp [asset_score, hv, checkOpt, bind, Except.bind]⟩
    | some s =>
      cases hb : validate s with
      | error e =>
        exact ⟨e, by simp [asset_score, hv, checkOpt, hb, bind, Except.bind]⟩
      | ok b2 =>
        exact ⟨.valueErrorTruth,
          by simp [asset_score, hv, checkOpt, hb, seriesBool, bind, Except.bind]⟩

/-- **C1 (the code at the claim's input).** On the spec's 5-element series
with `window = 3` and the benchmark left at its default `None`,
`asset_score` computes no rolling score at all: the cleanliness check is
applied to the `None` benchmark and `None.isnull()` raises
`AttributeError` before any score computation could start. -/
theorem asset_score_stub_raises :
    asset_score ⟨[(0, some (1/100)), (1, some (2/100)), (2, some (-1/100)),
        (3, some (3/100)), (4, some 0)], false⟩ none 3
      = .error .attributeError := by
  norm_num [asset_score, validate, check_return_cleanliness, isnullSum, duplicatedSum,
    isMonotonicIncreasing, checkOpt, to_datetime, List.countP, List.countP.go,
    Except.map, bind, Except.bind]

/-- **C10 counterexample.** With a clean one-row `returns` series and an
*empty* benchmark series — a case outside "benchmark is a non-empty
series", so by the claim the empty branch body should be skipped and the
function should return `None` — the pandas truth test on the empty Series
raises `ValueError` itself, and the call does not return `None`. -/
theorem asset_score_empty_benchmark_raises :
    asset_score ⟨[(0, some (1/100))], false⟩ (some ⟨[], false⟩) 3
      = .error .valueErrorTruth
    ∧ asset_score ⟨[(0, some (1/100))], false⟩ (some ⟨[], false⟩) 3
      ≠ .ok none := by
  constructor
  · norm_num [asset_score, validate, check_return_cleanliness, isnullSum, duplicatedSum,
      isMonotonicIncreasing, checkOpt, seriesBool, to_datetime, List.countP, List.countP.go,
      Except.map, bind, Except.bind]
  · norm_num [asset_score, validate, check_return_cleanliness, isnullSum, duplicatedSum,
      isMonotonicIncreasing, checkOpt, seriesBool, to_datetime, List.countP, List.countP.go,
      Except.map, bind, Except.bind]
    exact fun h => Except.noConfusion h

/-- **C10 amended.** `asset_score` never returns a rolling score series —
in fact it never returns at all: every call raises.  With the default
`None` benchmark (and a `returns` series passing its check) the
cleanliness check applied to the benchmark raises `AttributeError`; with
any benchmark series that passes the cleanliness check — empty or not —
the `if benchmark_returns:` truth test raises `ValueError`, so the empty
comparative branch body is never even reached. -/
theorem asset_score_never_scores (returns : RSeries) (benchmark : Option RSeries) (w : Nat) :
    (∃ e, asset_score returns benchmark w = .error e)
    ∧ (∀ out, asset_score returns benchmark w ≠ .ok out)
    ∧ ((∃ r, validate returns = .ok r) →
        asset_score returns none w = .error .attributeError)
    ∧ (∀ s, benchmark = some s → (∃ r, validate returns = .ok r) →
        (∃ b2, validate s = .ok b2) →
        asset_score returns benchmark w = .error .valueErrorTruth) := by
  obtain ⟨e, he⟩ := asset_score_always_errors returns benchmark w
  refine ⟨⟨e, he⟩, fun out hout => by rw [he] at hout; exact Except.noConfusion hout,
    fun ⟨r, hr⟩ => by simp [asset_score, hr, checkOpt, bind, Except.bind],
    fun s hs ⟨r, hr⟩ ⟨b2, hb2⟩ => by
      subst hs
      simp [asset_score, hr, checkOpt, hb2, seriesBool, bind, Except.bind]⟩

/-! ### Helper lemmas about the cumulative-return and drawdown curves -/

lemma cumprodAux_length : ∀ (a : ℚ) (l : List ℚ), (cumprodAux a l).length = l.length
  | _, [] => rfl
  | a, x :: t => by simp [cumprodAux, cumprodAux_length (a * x) t]

lemma cummaxAux_length : ∀ (m : ℚ) (l : List ℚ), (cummaxAux m l).length = l.length
  | _, [] => rfl
  | m, x :: t => by simp [cummaxAux, cummaxAux_length (max m x) t]

lemma cummax_length : ∀ l : List ℚ, (cummax l).length = l.length
  | [] => rfl
  | x :: t => by simp [cummax, cummaxAux_length]

lemma cumulative_return_length (rs : List ℚ) :
    (cumulative_return rs).length = rs.length := by
  simp [cumulative_return, cumprod, cumprodAux_length]

lemma drawdown_length (rs : List ℚ) : (drawdown rs).length = rs.length := by
  simp [drawdown, cumulative_return_length, cummax_length]

lemma cumprodAux_getElem :
    ∀ (a : ℚ) (l : List ℚ) (i : ℕ) (h : i < (cumprodAux a l).length),
      (cumprodAux a l)[i] = a * (l.take (i + 1)).prod
  | _, [], i, h => absurd h (by simp [cumprodAux])
  | a, x :: t, 0, h => by simp [cumprodAux]
  | a, x :: t, i + 1, h => by
    have h2 : i < (cumprodAux (a * x) t).length := by
      simpa [cumprodAux] using h
    simp [cumprodAux, cumprodAux_getElem (a * x) t i h2, mul_assoc]

lemma cummaxAux_getElem_ge :
    ∀ (m : ℚ) (l : List ℚ) (i : ℕ) (hl : i < l.length)
      (h : i < (cummaxAux m l).length), l[i] ≤ (cummaxAux m l)[i]
  | _, [], i, hl, _ => absurd hl (by simp)
  | m, x :: t, 0, hl, h => by simp [cummaxAux]
  | m, x :: t, i + 1, hl, h => by
    have hl2 : i < t.length := by simpa using hl
    have h2 : i < (cummaxAux (max m x) t).length := by
      simpa [cummaxAux] using h
    simpa [cummaxAux] using cummaxAux_getElem_ge (max m x) t i hl2 h2

lemma cummaxAux_getElem_mem :
    ∀ (m : ℚ) (l : List ℚ) (i : ℕ) (h : i < (cummaxAux m l).length),
      (cummaxAux m l)[i] = m ∨ (cummaxAux m l)[i] ∈ l
  | _, [], i, h => absurd h (by simp [cummaxAux])
  | m, x :: t, 0, h => by
    rcases max_choice m x with h1 | h1 <;> simp [cummaxAux, h1]
  | m, x :: t, i + 1, h => by
    have h2 : i < (cummaxAux (max m x) t).length := by
      simpa [cummaxAux] using h
    have := cummaxAux_getElem_mem (max m x) t i h2
    rcases this with h1 | h1
    · rcases max_choice m x with h3 | h3
      · left
        simpa [cummaxAux, h3] using h1
      · right
        rw [List.mem_cons]
        left
        simpa [cummaxAux, h3] using h1
    · right
      rw [List.mem_cons]
      right
      simpa [cummaxAux] using h1

lemma cummax_getElem_ge (l : List ℚ) (i : ℕ) (hl : i < l.length)
    (h : i < (cummax l).length) : l[i] ≤ (cummax l)[i] := by
  cases l with
  | nil => simp at hl
  | cons x t => exact cummaxAux_getElem_ge x (x :: t) i hl h

lemma cummax_getElem_mem (l : List ℚ) (i : ℕ) (h : i < (cummax l).length) :
    (cummax l)[i] ∈ l := by
  cases l with
  | nil => simp [cummax] at h
  | cons x t =>
    rcases cummaxAux_getElem_mem x (x :: t) i h with h1 | h1
    · have h3 : (cummax (x :: t))[i] = x := h1
      rw [h3]
      exact List.mem_cons_self x t
    · exact h1

lemma cummax_getElem_zero (l : List ℚ) (hl : 0 < l.length)
    (h : 0 < (cummax l).length) : (cummax l)[0] = l[0] := by
  cases l with
  | nil => simp at hl
  | cons x t => simp [cummax, cummaxAux]

lemma cumprodAux_pos :
    ∀ (a : ℚ) (l : List ℚ), 0 < a → (∀ x ∈ l, 0 < x) →
      ∀ y ∈ cumprodAux a l, 0 < y
  | _, [], _, _ => by simp [cumprodAux]
  | a, x :: t, ha, hl => by
    have hax : 0 < a * x := mul_pos ha (hl x (List.mem_cons_self x t))
    intro y hy
    rcases List.mem_cons.mp (by simpa [cumprodAux] using hy) with h1 | h1
    · rw [h1]; exact hax
    · exact cumprodAux_pos (a * x) t hax (fun z hz => hl z (List.mem_cons_of_mem x hz)) y h1

lemma cumulative_return_pos (rs : List ℚ) (h : ∀ r ∈ rs, -1 < r) :
    ∀ y ∈ cumulative_return rs, 0 < y := by
  apply cumprodAux_pos 1 _ one_pos
  intro x hx
  obtain ⟨r, hr, rfl⟩ := List.mem_map.mp hx
  linarith [h r hr]

lemma drawdown_getElem (rs : List ℚ) (i : ℕ)
    (hC : i < (cumulative_return rs).length)
    (hM : i < (cummax (cumulative_return rs)).length)
    (hD : i < (drawdown rs).length) :
    (drawdown rs)[i]
      = fdiv ((cumulative_return rs)[i] - (cummax (cumulative_return rs))[i])
          ((cummax (cumulative_return rs))[i]) := by
  simp only [drawdown]
  rw [List.getElem_zipWith]

lemma foldl_pymin2_fin :
    ∀ (l : List PyF) (acc : PyF),
      (acc = .nan ∨ ∃ q, acc = .fin q ∧ q ≤ 0) →
      (∀ x ∈ l, ∃ q, x = .fin q ∧ q ≤ 0) →
      (l ≠ [] ∨ ∃ q, acc = .fin q ∧ q ≤ 0) →
      ∃ q, List.foldl pymin2 acc l = .fin q ∧ q ≤ 0
  | [], acc, _, _, hne => by
    rcases hne with hne | hfin
    · exact absurd rfl hne
    · simpa using hfin
  | x :: t, acc, hacc, hl, _ => by
    obtain ⟨qx, hqx, hqx0⟩ := hl x (List.mem_cons_self x t)
    have hnew : ∃ q, pymin2 acc x = .fin q ∧ q ≤ 0 := by
      rcases hacc with h | ⟨qa, hqa, hqa0⟩
      · exact ⟨qx, by simp [h, hqx, pymin2], hqx0⟩
      · exact ⟨min qa qx, by simp [hqa, hqx, pymin2], le_trans (min_le_left qa qx) hqa0⟩
    rw [List.foldl_cons]
    exact foldl_pymin2_fin t (pymin2 acc x) (Or.inr hnew)
      (fun z hz => hl z (List.mem_cons_of_mem x hz)) (Or.inr hnew)

/-! ### Claims about drawdown and cumulative return (C6, C7) -/

/-- **C6 counterexample.** For the validated series `[-2, 1]` (no missing
values) the cumulative curve is `[-1, -2]` and its running maximum `[-1, -1]`
is negative, so the drawdown at index 1 is `(-2 - (-1)) / (-1) = 1 > 0`:
not every drawdown entry is ≤ 0. -/
theorem drawdown_positive_entry :
    drawdown [-2, 1] = [.fin 0, .fin 1] ∧ ¬ ((1 : ℚ) ≤ 0) := by
  refine ⟨?_, by norm_num⟩
  norm_num [drawdown, cumulative_return, cumprod, cumprodAux, cummax, cummaxAux, fdiv]

/-- **C6 amended.** For every series, `drawdown` follows the `(C - M) / M`
formula entrywise and `max_drawdown` is the NaN-skipping minimum of the
drawdown series; when every return exceeds `-1` — so the cumulative curve
stays positive — every drawdown entry is a finite value ≤ 0, the drawdown
is 0 at every running-maximum point (index 0 included), and the maximum
drawdown of a non-empty series is a finite value ≤ 0.  (Without that
restriction an entry can be positive, or NaN when the curve reaches 0.) -/
theorem drawdown_spec (rs : List ℚ) :
    (∀ (i : ℕ) (hC : i < (cumulative_return rs).length)
        (hM : i < (cummax (cumulative_return rs)).length)
        (hD : i < (drawdown rs).length),
        (drawdown rs)[i]
          = fdiv ((cumulative_return rs)[i] - (cummax (cumulative_return rs))[i])
              ((cummax (cumulative_return rs))[i]))
    ∧ max_drawdown rs = pymin (drawdown rs)
    ∧ ((∀ r ∈ rs, -1 < r) →
        (∀ (i : ℕ) (hD : i < (drawdown rs).length),
            ∃ q, (drawdown rs)[i] = .fin q ∧ q ≤ 0)
        ∧ (∀ (i : ℕ) (hC : i < (cumulative_return rs).length)
            (hM : i < (cummax (cumulative_return rs)).length)
            (hD : i < (drawdown rs).length),
            (cumulative_return rs)[i] = (cummax (cumulative_return rs))[i] →
            (drawdown rs)[i] = .fin 0)
        ∧ (∀ hD : 0 < (drawdown rs).length, (drawdown rs)[0] = .fin 0)
        ∧ (rs ≠ [] → ∃ q, max_drawdown rs = .fin q ∧ q ≤ 0)) := by
  refine ⟨fun i hC hM hD => drawdown_getElem rs i hC hM hD, rfl, fun hpos => ?_⟩
  have hCpos : ∀ y ∈ cumulative_return rs, 0 < y := cumulative_return_pos rs hpos
  have key : ∀ (i : ℕ) (hD : i < (drawdown rs).length),
      ∃ q, (drawdown rs)[i] = .fin q ∧ q ≤ 0 := by
    intro i hD
    have hD' : i < rs.length := by rwa [drawdown_length] at hD
    have hC : i < (cumulative_return rs).length := by rwa [cumulative_return_length]
    have hM : i < (cummax (cumulative_return rs)).length := by
      rwa [cummax_length, cumulative_return_length]
    have hMpos : 0 < (cummax (cumulative_return rs))[i] :=
      hCpos _ (cummax_getElem_mem _ i hM)
    have hle : (cumulative_return rs)[i] ≤ (cummax (cumulative_return rs))[i] :=
      cummax_getElem_ge _ i hC hM
    refine ⟨((cumulative_return rs)[i] - (cummax (cumulative_return rs))[i])
        / (cummax (cumulative_return rs))[i], ?_, ?_⟩
    · rw [drawdown_getElem rs i hC hM hD, fdiv, if_neg (ne_of_gt hMpos)]
    · exact div_nonpos_iff.mpr (Or.inr ⟨sub_nonpos.mpr hle, hMpos.le⟩)
  have zeroAt : ∀ (i : ℕ) (hC : i < (cumulative_return rs).length)
      (hM : i < (cummax (cumulative_return rs)).length)
      (hD : i < (drawdown rs).length),
      (cumulative_return rs)[i] = (cummax (cumulative_return rs))[i] →
      (drawdown rs)[i] = .fin 0 := by
    intro i hC hM hD heq
    have hMpos : 0 < (cummax (cumulative_return rs))[i] :=
      hCpos _ (cummax_getElem_mem _ i hM)
    rw [drawdown_getElem rs i hC hM hD, heq, sub_self, fdiv, if_neg (ne_of_gt hMpos)]
    rw [zero_div]
  refine ⟨key, zeroAt, ?_, ?_⟩
  · intro hD
    have hC : 0 < (cumulative_return rs).length := by
      rw [cumulative_return_length]
      rwa [drawdown_length] at hD
    have hM : 0 < (cummax (cumulative_return rs)).length := by
      rw [cummax_length]
      exact hC
    exact zeroAt 0 hC hM hD (cummax_getElem_zero _ hC hM).symm
  · intro hne
    have hlen : drawdown rs ≠ [] := by
      rw [← List.length_pos, drawdown_length]
      exact List.length_pos.mpr hne
    have hall : ∀ x ∈ drawdown rs, ∃ q, x = .fin q ∧ q ≤ 0 := by
      intro x hx
      obtain ⟨i, hi, rfl⟩ := List.mem_iff_getElem.mp hx
      exact key i hi
    exact foldl_pymin2_fin (drawdown rs) .nan (Or.inl rfl) hall (Or.inl hlen)

/-- **C7 counterexample.** The exact cumulative curve of the example series
has `C[3] = C[4] = 1.019898 × 1.03 = 1.05049494`, while the claim states
`1.05049694`, which is off by `2×10⁻⁶` — more than 6-decimal agreement
allows; and the drawdown at index 2 is `(1.019898 - 1.0302)/1.0302 = -0.01`
exactly, not about `-0.009808` (off by `1.92×10⁻⁴`). -/
theorem cumulative_return_example_off :
    cumulative_return [1/100, 2/100, -1/100, 3/100, 0]
      = [101/100, 10302/10000, 1019898/1000000, 105049494/100000000, 105049494/100000000]
    ∧ (105049694 : ℚ)/100000000 - 105049494/100000000 = 2/1000000
    ∧ ¬ ((2 : ℚ)/1000000 ≤ 1/1000000)
    ∧ drawdown [1/100, 2/100, -1/100, 3/100, 0]
      = [.fin 0, .fin 0, .fin (-1/100), .fin 0, .fin 0]
    ∧ (-1 : ℚ)/100 - (-9808/1000000) = -192/1000000
    ∧ ¬ (|(-192 : ℚ)/1000000| ≤ 1/10000) := by
  refine ⟨?_, by norm_num, by norm_num, ?_, by norm_num, ?_⟩
  · norm_num [cumulative_return, cumprod, cumprodAux]
  · norm_num [drawdown, cumulative_return, cumprod, cumprodAux, cummax, cummaxAux, fdiv]
  · rw [abs_of_nonpos (by norm_num)]
    norm_num

/-- **C7 amended.** `cumulative_return` produces the running product
`C[i] = Π_{k ≤ i} (1 + r_k)`, defined for every element, with
`C[0] = 1 + r_0`; on the example series `[0.01, 0.02, -0.01, 0.03, 0.00]`
the exact curve is `[1.01, 1.0302, 1.019898, 1.05049494, 1.05049494]`
(so `1.050495` to 6 decimals, not `1.050497`) and the drawdown at index 2
is `(1.019898 - 1.0302)/1.0302 = -0.01` exactly. -/
theorem cumulative_return_spec (rs : List ℚ) :
    (cumulative_return rs).length = rs.length
    ∧ (∀ (i : ℕ) (h : i < (cumulative_return rs).length),
        (cumulative_return rs)[i] = ((rs.take (i + 1)).map (fun r => r + 1)).prod)
    ∧ (∀ (r0 : ℚ) (t : List ℚ), rs = r0 :: t →
        ∀ h : 0 < (cumulative_return rs).length, (cumulative_return rs)[0] = 1 + r0)
    ∧ cumulative_return [1/100, 2/100, -1/100, 3/100, 0]
      = [101/100, 10302/10000, 1019898/1000000, 105049494/100000000, 105049494/100000000]
    ∧ drawdown [1/100, 2/100, -1/100, 3/100, 0]
      = [.fin 0, .fin 0, .fin (-1/100), .fin 0, .fin 0] := by
  refine ⟨cumulative_return_length rs, ?_, ?_, ?_, ?_⟩
  · intro i h
    have h2 : i < (cumprodAux 1 (rs.map (fun r => r + 1))).length := h
    rw [show (cumulative_return rs)[i] = (cumprodAux 1 (rs.map (fun r => r + 1)))[i] from rfl,
      cumprodAux_getElem 1 _ i h2, one_mul, List.map_take]
  · intro r0 t h0 h
    subst h0
    simp [cumulative_return, cumprod, cumprodAux]
    ring
  · norm_num [cumulative_return, cumprod, cumprodAux]
  · norm_num [drawdown, cumulative_return, cumprod, cumprodAux, cummax, cummaxAux, fdiv]

/-! ### Claims about the Sharpe and Sortino ratios (C8, C9) -/

lemma sum_const_of_all_eq :
    ∀ (l : List ℚ) (c : ℚ), (∀ x ∈ l, x = c) → l.sum = c * l.length
  | [], _, _ => by simp
  | x :: t, c, h => by
    have hx : x = c := h x (List.mem_cons_self x t)
    have ht := sum_const_of_all_eq t c (fun z hz => h z (List.mem_cons_of_mem x hz))
    simp only [List.sum_cons, List.length_cons, hx, ht]
    push_cast
    ring

lemma mean_const (l : List ℚ) (c : ℚ) (hne : l ≠ []) (h : ∀ x ∈ l, x = c) :
    mean l = c := by
  have hlen : (l.length : ℚ) ≠ 0 :=
    Nat.cast_ne_zero.mpr (fun h0 => hne (List.length_eq_zero.mp h0))
  rw [mean, sum_const_of_all_eq l c h, mul_div_assoc, div_self hlen, mul_one]

lemma svar_const (l : List ℚ) (c : ℚ) (hne : l ≠ []) (h : ∀ x ∈ l, x = c) :
    svar l = 0 := by
  rw [svar]
  have hz : (l.map (fun x => (x - mean l) ^ 2)).sum = 0 := by
    apply List.sum_eq_zero
    intro y hy
    obtain ⟨x, hx, rfl⟩ := List.mem_map.mp hy
    rw [h x hx, mean_const l c hne h, sub_self]
    ring
  rw [hz, zero_div]

/-- **C8.** `sharpe_ratio` is `(mean - risk_free_rate) / std`; it is a
total function of the series (the engine cannot raise), and on a
zero-variance series -- sample standard deviation 0, e.g. every return
equal to one constant `c ≠ 0` -- the result is NaN or a signed infinity,
a state the caller detects through `RatioVal.isFinite = false`. -/
theorem sharpe_ratio_spec (xs : List ℚ) (rf : ℚ) :
    sharpe_ratio xs rf = ratioDiv (mean xs - rf) (std xs)
    ∧ (std xs = .sqrtOf 0 ∨ std xs = .nan →
        (sharpe_ratio xs rf).isFinite = false)
    ∧ (∀ c : ℚ, c ≠ 0 → xs ≠ [] → (∀ x ∈ xs, x = c) →
        (sharpe_ratio xs rf).isFinite = false) := by
  have key : std xs = .sqrtOf 0 ∨ std xs = .nan →
      (sharpe_ratio xs rf).isFinite = false := by
    rintro (h | h)
    · rw [sharpe_ratio, h]
      simp only [ratioDiv, if_pos rfl]
      split_ifs <;> rfl
    · rw [sharpe_ratio, h]
      rfl
  refine ⟨rfl, key, fun c hc hne hall => key ?_⟩
  by_cases hlen : xs.length ≤ 1
  · right
    rw [std, if_pos hlen]
  · left
    rw [std, if_neg hlen, svar_const xs c hne hall]

/-- **C9.** `sortino_ratio` is `(mean - risk_free_rate)` divided by the
sample standard deviation of the strictly negative values only; it cannot
raise, and when the series has no negative value the downside sample is
empty, its standard deviation is NaN, and the ratio is NaN. -/
theorem sortino_ratio_spec (xs : List ℚ) (rf : ℚ) :
    sortino_ratio xs rf
      = ratioDiv (mean xs - rf) (std (xs.filter (fun x => x < 0)))
    ∧ ((∀ x ∈ xs, 0 ≤ x) → sortino_ratio xs rf = .nan) := by
  refine ⟨rfl, fun h => ?_⟩
  have hfil : xs.filter (fun x => decide (x < 0)) = [] := by
    rw [List.filter_eq_nil_iff]
    intro a ha
    simpa using not_lt.mpr (h a ha)
  rw [sortino_ratio, hfil]
  rfl

end QF
